import Mathlib

/-!
Verification of the SDG geometric solver (`solver_sdg.py`) and of the
divergence branch of the validation pipeline (`validation_pipeline.py`).

Grids are embedded as total functions `ℕ → ℕ → ℝ` (or `ℂ`); a grid of
shape `m × n` is read at indices `i < m`, `j < n`.  `jnp.roll` reads the
periodic neighbours `(i ± 1) % m`, so all in-range cells only ever look
at in-range cells.  Machine floats are modelled by real numbers; the
validation pipeline, whose branch of interest is driven by `NaN`/`Inf`
checks, is modelled separately with an explicit float-value type over `ℚ`.
-/

set_option maxHeartbeats 1000000

namespace SolverSDG

noncomputable section

/-- Periodic successor index: `jnp.roll(x, -1, axis)` reads `x[(i+1) % N]`. -/
def wrapSucc (N i : ℕ) : ℕ := (i + 1) % N

/-- Periodic predecessor index: `jnp.roll(x, 1, axis)` reads `x[(i-1) % N]`,
i.e. `x[(i + N - 1) % N]`. -/
def wrapPred (N i : ℕ) : ℕ := (i + N - 1) % N

/-- One sweep of the loop body of `_jacobi_poisson_solver`
(solver_sdg.py lines 20-26): `x_new = (four periodic neighbours + source*dx^2)/4`
followed by the over-relaxation blend `x = (1-omega)*x + omega*x_new`. -/
def jacobiStep (m n : ℕ) (source x : ℕ → ℕ → ℝ) (dx omega : ℝ) : ℕ → ℕ → ℝ :=
  fun i j =>
    let x_new := (x (wrapPred m i) j + x (wrapSucc m i) j +
                  x i (wrapPred n j) + x i (wrapSucc n j) + source i j * (dx * dx)) / 4
    (1 - omega) * x i j + omega * x_new

/-- `_jacobi_poisson_solver` (solver_sdg.py lines 16-27): runs `iterations`
sweeps of `jacobiStep`, with no convergence test and no clipping. -/
def _jacobi_poisson_solver (m n : ℕ) (source x : ℕ → ℕ → ℝ) (dx : ℝ) :
    ℕ → ℝ → ℕ → ℕ → ℝ
  | 0, _ => x
  | k + 1, omega =>
      jacobiStep m n source (_jacobi_poisson_solver m n source x dx k omega) dx omega

/-- One-dimensional `numpy`/`jax.numpy` gradient (`jnp.gradient` along one
axis, spacing `d`): central difference in the interior, one-sided forward or
backward difference at the first and last index.  There is no periodic wrap. -/
def npGrad {K : Type} [Field K] (N : ℕ) (f : ℕ → K) (d : K) (i : ℕ) : K :=
  if i = 0 then (f 1 - f 0) / d
  else if i = N - 1 then (f (N - 1) - f (N - 2)) / d
  else (f (i + 1) - f (i - 1)) / (2 * d)

/-- `jnp.gradient(f, d, axis=0)` on a grid of shape `m × n`. -/
def gradAx0 {K : Type} [Field K] (m : ℕ) (f : ℕ → ℕ → K) (d : K) (x y : ℕ) : K :=
  npGrad m (fun i => f i y) d x

/-- `jnp.gradient(f, d, axis=1)` on a grid of shape `m × n`. -/
def gradAx1 {K : Type} [Field K] (n : ℕ) (f : ℕ → ℕ → K) (d : K) (x y : ℕ) : K :=
  npGrad n (fun j => f x j) d y

/-- `calculate_informational_stress_energy` (solver_sdg.py lines 45-61):
`rho = |Psi|^2`, `phi = angle(Psi)`, gradients of `phi` and of
`sqrt(max(rho, 1e-9))` via `jnp.gradient` with unit spacing,
`T_00 = kappa*rho*|grad phi|^2 + eta*|grad sqrt(rho)|^2`, stored (cast to
the complex dtype of `Psi`) in slot `[0,0]` of an otherwise-zero 4x4 tensor;
`moveaxis` puts the tensor indices first, so the result is indexed
`[a, b, x, y]`. -/
def calculate_informational_stress_energy (m n : ℕ) (Psi : ℕ → ℕ → ℂ)
    (sdg_kappa sdg_eta : ℝ) : Fin 4 → Fin 4 → ℕ → ℕ → ℂ :=
  let rho : ℕ → ℕ → ℝ := fun i j => Complex.abs (Psi i j) ^ 2
  let phi : ℕ → ℕ → ℝ := fun i j => Complex.arg (Psi i j)
  let sqrt_rho : ℕ → ℕ → ℝ := fun i j => Real.sqrt (max (rho i j) 1e-9)
  let T_00 : ℕ → ℕ → ℝ := fun i j =>
    sdg_kappa * rho i j * (gradAx1 n phi 1 i j ^ 2 + gradAx0 m phi 1 i j ^ 2) +
      sdg_eta * (gradAx1 n sqrt_rho 1 i j ^ 2 + gradAx0 m sqrt_rho 1 i j ^ 2)
  fun a b i j => if a = 0 ∧ b = 0 then ((T_00 i j : ℝ) : ℂ) else 0

/-- Modelled from the spec's words (claim C1): a central difference along
axis 0 "with periodic wrap at the grid edges", unit spacing. -/
def specPeriodicGrad0 (m : ℕ) (f : ℕ → ℕ → ℝ) (x y : ℕ) : ℝ :=
  (f (wrapSucc m x) y - f (wrapPred m x) y) / 2

/-- Modelled from the spec's words (claim C1): a central difference along
axis 1 "with periodic wrap at the grid edges", unit spacing. -/
def specPeriodicGrad1 (n : ℕ) (f : ℕ → ℕ → ℝ) (x y : ℕ) : ℝ :=
  (f x (wrapSucc n y) - f x (wrapPred n y)) / 2

/-- Modelled from the spec's words (claim C1): the `T_00` value that the
claim asserts, with both gradients taken as periodic-wrap central
differences.  This is the spec-side definition used only to compare the
claim against the code's `calculate_informational_stress_energy`. -/
def spec_T00 (m n : ℕ) (Psi : ℕ → ℕ → ℂ) (kappa eta : ℝ) (i j : ℕ) : ℝ :=
  let rho : ℕ → ℕ → ℝ := fun p q => Complex.abs (Psi p q) ^ 2
  let phi : ℕ → ℕ → ℝ := fun p q => Complex.arg (Psi p q)
  let sqrt_rho : ℕ → ℕ → ℝ := fun p q => Real.sqrt (max (rho p q) 1e-9)
  kappa * rho i j * (specPeriodicGrad1 n phi i j ^ 2 + specPeriodicGrad0 m phi i j ^ 2) +
    eta * (specPeriodicGrad1 n sqrt_rho i j ^ 2 + specPeriodicGrad0 m sqrt_rho i j ^ 2)

/-- Concrete 2x2 field used to separate the code's edge handling from the
claimed periodic wrap: amplitude 1 at the origin cell, 2 elsewhere. -/
def exPsi : ℕ → ℕ → ℂ := fun i j => if i = 0 ∧ j = 0 then 1 else 2

/-- Spatial mean of a grid of shape `m × n` (the quantity conserved by the
zero-source relaxation, spec section 8). -/
def gridMean (m n : ℕ) (x : ℕ → ℕ → ℝ) : ℝ :=
  (∑ i ∈ Finset.range m, ∑ j ∈ Finset.range n, x i j) / (m * n)

/-- `eta = jnp.diag(jnp.array([-1.0, 1.0, 1.0, 1.0]))` (solver_sdg.py line 72). -/
def minkowskiEta : Fin 4 → Fin 4 → ℝ :=
  fun a b => if a = b then (if a = 0 then -1 else 1) else 0

/-- Metric assembly (solver_sdg.py lines 72-74):
`scale = (rho_vac / rho)^alpha` and `g_mu_nu = einsum('ab,xy->abxy', eta, scale)`,
i.e. `g_mu_nu a b x y = eta a b * (rho_vac / rho x y)^alpha` (real power). -/
def assemble_metric (rho : ℕ → ℕ → ℝ) (alpha rho_vac : ℝ) :
    Fin 4 → Fin 4 → ℕ → ℕ → ℝ :=
  fun a b x y => minkowskiEta a b * (rho_vac / rho x y) ^ alpha

/-- `solve_sdg_geometry` (solver_sdg.py lines 64-76): takes the real part of
`T_info[0,0]` as the Poisson source, runs the relaxation solver for 50
iterations with `omega = 1.8`, clips the result from below at `1e-6`
(`jnp.clip(rho, 1e-6, None)` is an elementwise `max`), and assembles the
conformal metric from the clipped density. -/
def solve_sdg_geometry (m n : ℕ) (T_info : Fin 4 → Fin 4 → ℕ → ℕ → ℂ)
    (rho_s : ℕ → ℕ → ℝ) (spatial_res : ℕ) (alpha rho_vac : ℝ) :
    (ℕ → ℕ → ℝ) × (Fin 4 → Fin 4 → ℕ → ℕ → ℝ) :=
  let dx : ℝ := 1 / (spatial_res : ℝ)
  let T_00 : ℕ → ℕ → ℝ := fun i j => (T_info 0 0 i j).re
  let rho_s_new := _jacobi_poisson_solver m n T_00 rho_s dx 50 1.8
  let clipped : ℕ → ℕ → ℝ := fun i j => max (rho_s_new i j) 1e-6
  (clipped, assemble_metric clipped alpha rho_vac)

/-- The two active spatial axes: `g_mu_nu[1:3, 1:3]` selects tensor indices
1 and 2 of the 4x4 metric (solver_sdg.py line 81). -/
def spatialIdx : Fin 2 → Fin 4 := ![1, 2]

/-- Per-cell 2x2 matrix inverse (`jax.vmap(jax.vmap(jnp.linalg.inv))`,
solver_sdg.py lines 83-84), written with the adjugate-over-determinant
formula for a 2x2 matrix. -/
def inv2x2 (g : Fin 2 → Fin 2 → ℝ) : Fin 2 → Fin 2 → ℝ := fun a b =>
  (if a = 0 then (if b = 0 then g 1 1 else -g 0 1)
   else (if b = 0 then -g 1 0 else g 0 0)) /
    (g 0 0 * g 1 1 - g 0 1 * g 1 0)

/-- Derivative of the metric reconstruction (solver_sdg.py lines 29-43 and
90-96): `jax.jacfwd` through `map_coordinates(order=1, mode="wrap")`
evaluated at integer grid points.  Forward-mode differentiation of the
piecewise-linear wrap-mode interpolation at an integer coordinate yields the
periodic forward difference `g[(i+1) % N] - g[i]` along the chosen axis
(`floor` carries derivative zero through the tracer, so only the
interpolation weights are differentiated). -/
def dgij (m n : ℕ) (gij : Fin 2 → Fin 2 → ℕ → ℕ → ℝ) (k : Fin 2) (a b : Fin 2)
    (x y : ℕ) : ℝ :=
  if k = 0 then gij a b (wrapSucc m x) y - gij a b x y
  else gij a b x (wrapSucc n y) - gij a b x y

/-- Christoffel symbols (solver_sdg.py lines 98-111):
`Gamma^k_ij = 0.5 * g^kl * (d_i g_lj + d_j g_li - d_l g_ij)`, with the
per-cell inverse spatial metric and the interpolation derivative `dgij`. -/
def Gamma (m n : ℕ) (gij : Fin 2 → Fin 2 → ℕ → ℕ → ℝ) (k i j : Fin 2)
    (x y : ℕ) : ℝ :=
  0.5 * ∑ l : Fin 2, inv2x2 (fun a b => gij a b x y) k l *
      (dgij m n gij i l j x y + dgij m n gij j l i x y - dgij m n gij l i j x y)

/-- Field gradient vector (solver_sdg.py lines 113-115): `jnp.gradient` of
`Psi` with spacing `dx`; component 0 is the axis-0 derivative (`dPsi_dy`),
component 1 the axis-1 derivative (`dPsi_dx`). -/
def dPsi (m n : ℕ) (Psi : ℕ → ℕ → ℂ) (dx : ℝ) (k : Fin 2) (x y : ℕ) : ℂ :=
  if k = 0 then gradAx0 m Psi (dx : ℂ) x y else gradAx1 n Psi (dx : ℂ) x y

/-- Field Hessian (solver_sdg.py lines 117-128): `hessian[i][j]` is the
axis-`j` `jnp.gradient` (spacing `dx`) of the axis-`i` first derivative. -/
def hessianPsi (m n : ℕ) (Psi : ℕ → ℕ → ℂ) (dx : ℝ) (i j : Fin 2) (x y : ℕ) : ℂ :=
  if j = 0 then gradAx0 m (fun p q => dPsi m n Psi dx i p q) (dx : ℂ) x y
  else gradAx1 n (fun p q => dPsi m n Psi dx i p q) (dx : ℂ) x y

/-- Volume element `sqrt(max(-det g, 0))` of the full 4x4 metric
(solver_sdg.py lines 86-88).  The source computes this inside
`apply_complex_diffusion` and never uses it (dead/diagnostic output,
spec section 9), so it is embedded as a standalone definition. -/
def sqrt_neg_g (g_mu_nu : Fin 4 → Fin 4 → ℕ → ℕ → ℝ) (x y : ℕ) : ℝ :=
  Real.sqrt (max (-(Matrix.det (Matrix.of fun a b => g_mu_nu a b x y))) 0)

/-- `apply_complex_diffusion` (solver_sdg.py lines 78-134): slices the
spatial 2x2 block `g_ij = g_mu_nu[1:3,1:3]`, inverts it per cell, forms the
Christoffel symbols from the interpolation derivative of `g_ij`, contracts
inverse metric with the Hessian and with `Gamma . dPsi` to get the
Laplace-Beltrami value, and scales by `epsilon*0.5 + 1j*epsilon*0.8`. -/
def apply_complex_diffusion (m n : ℕ) (Psi : ℕ → ℕ → ℂ) (epsilon : ℝ)
    (g_mu_nu : Fin 4 → Fin 4 → ℕ → ℕ → ℝ) (spatial_resolution : ℕ) : ℕ → ℕ → ℂ :=
  let dx : ℝ := 1 / (spatial_resolution : ℝ)
  let g_ij : Fin 2 → Fin 2 → ℕ → ℕ → ℝ :=
    fun a b x y => g_mu_nu (spatialIdx a) (spatialIdx b) x y
  fun x y =>
    let g_inv : Fin 2 → Fin 2 → ℝ := inv2x2 (fun a b => g_ij a b x y)
    let laplace_beltrami : ℂ :=
      (∑ i : Fin 2, ∑ j : Fin 2, ((g_inv i j : ℝ) : ℂ) * hessianPsi m n Psi dx i j x y) -
        ∑ i : Fin 2, ∑ j : Fin 2, ∑ k : Fin 2,
          ((g_inv i j : ℝ) : ℂ) * ((Gamma m n g_ij k i j x y : ℝ) : ℂ) *
            dPsi m n Psi dx k x y
    (((epsilon * 0.5 : ℝ) : ℂ) + Complex.I * ((epsilon * 0.8 : ℝ) : ℂ)) * laplace_beltrami

/-- Constant Minkowski metric tensor field (used as a concrete input). -/
def gMink : Fin 4 → Fin 4 → ℕ → ℕ → ℝ := fun a b _ _ => minkowskiEta a b

/-- The spatial block of `gMink` as a constant 2x2 matrix. -/
def flatG : Fin 2 → Fin 2 → ℝ := fun a b => minkowskiEta (spatialIdx a) (spatialIdx b)

/-- A metric field that agrees with `gMink` on the spatial block
`[1:3,1:3]` but differs in the time-time and third-spatial components. -/
def gMinkPerturbed : Fin 4 → Fin 4 → ℕ → ℕ → ℝ :=
  fun a b x y => gMink a b x y + (if a = 0 ∧ b = 0 then 7 else 0) +
    (if a = 3 ∧ b = 3 then 9 else 0)

end

end SolverSDG

namespace ValidationPipeline

/-- A stored complex sample of the archived field `final_psi`
(validation_pipeline.py line 130).  `nan` marks a sample with a NaN
component (and no infinite one), `inf` a sample with an infinite component;
`val re im` is an ordinary finite complex number.  Rationals stand in for
finite floats so that the checks stay decidable. -/
inductive Sample where
  | nan : Sample
  | inf : Sample
  | val : ℚ → ℚ → Sample
deriving DecidableEq

/-- A float value of the derived density grid: NaN, +Inf, or finite.
(`rho = np.abs(psi)**2` is never negative, so -Inf cannot occur.) -/
inductive FVal where
  | nan : FVal
  | inf : FVal
  | fin : ℚ → FVal
deriving DecidableEq

/-- `rho = np.abs(psi)**2` per cell (validation_pipeline.py line 131):
NaN components give NaN, infinite components give +Inf (`np.abs` uses
`hypot`, which returns Inf whenever either component is infinite), finite
samples give `re^2 + im^2`. -/
def np_abs_sq : Sample → FVal
  | Sample.nan => FVal.nan
  | Sample.inf => FVal.inf
  | Sample.val re im => FVal.fin (re ^ 2 + im ^ 2)

/-- `np.isnan` on one value. -/
def FVal.isNan : FVal → Bool
  | FVal.nan => true
  | _ => false

/-- `np.maximum` of two float values: NaN propagates, otherwise Inf
dominates, otherwise the ordinary maximum. -/
def fmax : FVal → FVal → FVal
  | FVal.nan, _ => FVal.nan
  | _, FVal.nan => FVal.nan
  | FVal.inf, _ => FVal.inf
  | _, FVal.inf => FVal.inf
  | FVal.fin a, FVal.fin b => FVal.fin (max a b)

/-- `np.max` over the flattened array (numpy raises on an empty array; the
`[]` case is unreachable for positive grid dimensions). -/
def npMax : List FVal → FVal
  | [] => FVal.nan
  | v :: vs => vs.foldl fmax v

/-- Strict float comparison `v > t`: false when `v` is NaN, true when `v`
is +Inf. -/
def FVal.gtQ : FVal → ℚ → Bool
  | FVal.nan, _ => false
  | FVal.inf, _ => true
  | FVal.fin x, t => decide (t < x)

/-- The flattened cell list of a 3D density grid of shape `d1 × d2 × d3`. -/
def cellsOf (d1 d2 d3 : ℕ) (rho : ℕ → ℕ → ℕ → FVal) : List FVal :=
  (List.range d1).flatMap fun i =>
    (List.range d2).flatMap fun j =>
      (List.range d3).map fun k => rho i j k

/-- The divergence test of validation_pipeline.py line 134:
`np.isnan(rho).any() or np.max(rho) > 1e6`. -/
def divergenceCheck (cells : List FVal) : Bool :=
  cells.any FVal.isNan || FVal.gtQ (npMax cells) 1000000

/-- The provenance record fields that the divergence branch touches:
status string, numeric sentinel, the spectral-fidelity (`log_prime_sse`)
metric and the stability (`h_norm`) metric; `none` models an absent key in
the `metrics` mapping. -/
structure ProvenanceRecord where
  validation_status : String
  sentinel_code : ℚ
  sse_metric : Option ℚ
  stability_metric : Option ℚ

/-- `settings.SENTINEL_DIVERGENCE` (validation_pipeline.py line 29). -/
def SENTINEL_DIVERGENCE : ℚ := 1002

/-- `settings.SENTINEL_FAILURE` (validation_pipeline.py line 28). -/
def SENTINEL_FAILURE : ℚ := 999

/-- The body of `run_validation` after the archive has been loaded
(validation_pipeline.py lines 130-154): derive `rho = |psi|^2`, and if the
divergence test fires, return the record with status "DIVERGENCE", sentinel
`SENTINEL_DIVERGENCE`, spectral-fidelity metric pinned at 1000.0 and no
stability metric, performing no further analysis.  The otherwise-branch
(h-norm variance and FFT spectral fidelity, lines 141-154) is beyond the
divergence claim and is passed in abstractly as `analysis`; the theorem
below holds for every such continuation. -/
def run_validation (d1 d2 d3 : ℕ) (psi : ℕ → ℕ → ℕ → Sample)
    (analysis : ProvenanceRecord) : ProvenanceRecord :=
  let rho : ℕ → ℕ → ℕ → FVal := fun i j k => np_abs_sq (psi i j k)
  if divergenceCheck (cellsOf d1 d2 d3 rho) then
    ⟨"DIVERGENCE", SENTINEL_DIVERGENCE, some 1000, none⟩
  else analysis

end ValidationPipeline

namespace SolverSDG

noncomputable section

lemma jacobi_eq_iterate (m n : ℕ) (source x : ℕ → ℕ → ℝ) (dx omega : ℝ) (k : ℕ) :
    _jacobi_poisson_solver m n source x dx k omega =
      (fun y => jacobiStep m n source y dx omega)^[k] x := by
  induction k with
  | zero => rfl
  | succ k ih =>
      rw [Function.iterate_succ_apply', ← ih]
      rfl

/-- C2: the elliptic relaxation runs exactly 50 sweeps with relaxation factor
`omega = 1.8`, each sweep computing `x_new` at every cell as
(sum of the four periodic-wrap neighbours + `S*dx^2`)/4 and then blending
`x := (1-omega)*x + omega*x_new`; the solver itself returns this 50-fold
iterate unclipped, and the clipping to `1e-6` is performed by the caller
`solve_sdg_geometry` on top of the solver's output. -/
theorem C2_fixed_relaxation (m n : ℕ) (source x : ℕ → ℕ → ℝ) (dx : ℝ)
    (T_info : Fin 4 → Fin 4 → ℕ → ℕ → ℂ) (rho_s : ℕ → ℕ → ℝ) (res : ℕ)
    (alpha rho_vac : ℝ) :
    _jacobi_poisson_solver m n source x dx 50 1.8 =
      (fun y : ℕ → ℕ → ℝ => fun i j =>
        (1 - 1.8) * y i j + 1.8 * ((y ((i + m - 1) % m) j + y ((i + 1) % m) j +
          y i ((j + n - 1) % n) + y i ((j + 1) % n) + source i j * (dx * dx)) / 4))^[50] x ∧
    (solve_sdg_geometry m n T_info rho_s res alpha rho_vac).1 =
      fun i j => max (_jacobi_poisson_solver m n (fun p q => (T_info 0 0 p q).re)
        rho_s (1 / (res : ℝ)) 50 1.8 i j) 1e-6 := by
  constructor
  · rw [jacobi_eq_iterate]
    rfl
  · rfl

/-- C3: the density field returned by `solve_sdg_geometry` is clipped from
below at `1e-6` at every cell. -/
theorem C3_density_floor (m n : ℕ) (T_info : Fin 4 → Fin 4 → ℕ → ℕ → ℂ)
    (rho_s : ℕ → ℕ → ℝ) (res : ℕ) (alpha rho_vac : ℝ) (i j : ℕ) :
    (1e-6 : ℝ) ≤ (solve_sdg_geometry m n T_info rho_s res alpha rho_vac).1 i j :=
  le_max_right _ _

/-- C4: for every clipped density (everywhere at least `1e-6`) the assembled
metric is `eta[a,b] * (rho_vac / rho(x,y))^alpha` with `eta = diag(-1,1,1,1)`,
and when the clipped density equals `rho_vac` at every cell the conformal
scale is `1` and the metric reduces to `diag(-1,1,1,1)` at every cell. -/
theorem C4_metric_assembly (rho : ℕ → ℕ → ℝ) (alpha rho_vac : ℝ)
    (h : ∀ i j, (1e-6 : ℝ) ≤ rho i j) :
    (∀ a b x y, assemble_metric rho alpha rho_vac a b x y =
        minkowskiEta a b * (rho_vac / rho x y) ^ alpha) ∧
    ((∀ x y, rho x y = rho_vac) →
      ∀ a b x y, assemble_metric rho alpha rho_vac a b x y = minkowskiEta a b) := by
  refine ⟨fun a b x y => rfl, fun hv a b x y => ?_⟩
  have hpos : (0 : ℝ) < rho x y := lt_of_lt_of_le (by norm_num) (h x y)
  have hone : rho_vac / rho x y = 1 := by
    rw [hv x y]
    exact div_self (hv x y ▸ hpos).ne'
  unfold assemble_metric
  rw [hone, Real.one_rpow, mul_one]

theorem C4_metric_assembly_witness :
    (∀ i j : ℕ, (1e-6 : ℝ) ≤ (fun _ _ : ℕ => (1 : ℝ)) i j) ∧
    (∀ (a b : Fin 4) (x y : ℕ),
      assemble_metric (fun _ _ => 1) 2 1 a b x y =
        minkowskiEta a b * ((1 : ℝ) / (fun _ _ : ℕ => (1 : ℝ)) x y) ^ (2 : ℝ)) := by
  have h : ∀ i j : ℕ, (1e-6 : ℝ) ≤ (fun _ _ : ℕ => (1 : ℝ)) i j := fun _ _ => by norm_num
  exact ⟨h, (C4_metric_assembly (fun _ _ => 1) 2 1 h).1⟩

/-- C10: `solve_sdg_geometry` reads its stress-energy input only through the
real part of the `[0,0]` component, so two inputs agreeing there give
identical density and metric outputs. -/
theorem C10_only_re_T00 (m n : ℕ) (T1 T2 : Fin 4 → Fin 4 → ℕ → ℕ → ℂ)
    (rho_s : ℕ → ℕ → ℝ) (res : ℕ) (alpha rho_vac : ℝ)
    (h : ∀ i j, (T1 0 0 i j).re = (T2 0 0 i j).re) :
    solve_sdg_geometry m n T1 rho_s res alpha rho_vac =
      solve_sdg_geometry m n T2 rho_s res alpha rho_vac := by
  have hT : (fun i j => (T1 0 0 i j).re) = fun i j => (T2 0 0 i j).re :=
    funext fun i => funext fun j => h i j
  simp only [solve_sdg_geometry, hT]

lemma sqrtRho_exPsi (i j : ℕ) :
    Real.sqrt (max (Complex.abs (exPsi i j) ^ 2) 1e-9) =
      if i = 0 ∧ j = 0 then 1 else 2 := by
  by_cases h : i = 0 ∧ j = 0
  · have h1 : Complex.abs (exPsi i j) = 1 := by simp [exPsi, h]
    rw [h1]
    have hmax : max ((1 : ℝ) ^ 2) 1e-9 = 1 := by norm_num
    rw [hmax, Real.sqrt_one, if_pos h]
  · have h2 : Complex.abs (exPsi i j) = 2 := by
      simp only [exPsi, if_neg h]
      exact Complex.abs_two
    rw [h2]
    have hmax : max ((2 : ℝ) ^ 2) 1e-9 = 2 ^ 2 := by norm_num
    rw [hmax, Real.sqrt_sq (by norm_num : (0 : ℝ) ≤ 2), if_neg h]

/-- C1 counterexample: on a 2x2 grid with `kappa = 0`, `eta = 1` and the
field `exPsi`, the `[0,0]` stress-energy component computed by the code
(one-sided `jnp.gradient` differences at the grid edges) differs from the
value the claim asserts (central differences with periodic wrap): the code
gives 2, the claimed formula gives 0 at cell (0,0). -/
theorem C1_counterexample :
    calculate_informational_stress_energy 2 2 exPsi 0 1 0 0 0 0 ≠
      ((spec_T00 2 2 exPsi 0 1 0 0 : ℝ) : ℂ) := by
  have hcode : calculate_informational_stress_energy 2 2 exPsi 0 1 0 0 0 0 = ((2 : ℝ) : ℂ) := by
    simp only [calculate_informational_stress_energy]
    rw [if_pos (And.intro trivial trivial)]
    simp only [gradAx0, gradAx1, npGrad, sqrtRho_exPsi]
    norm_num
  have hspec : spec_T00 2 2 exPsi 0 1 0 0 = 0 := by
    simp only [spec_T00, specPeriodicGrad0, specPeriodicGrad1, wrapSucc, wrapPred,
      sqrtRho_exPsi]
    norm_num
  rw [hcode, hspec]
  norm_num

/-- C1 amended: the `[0,0]` component of the returned tensor equals
`kappa*rho*|grad phi|^2 + eta*|grad sqrt(max(rho,1e-9))|^2` (cast to the
complex dtype) with `rho = |Psi|^2`, `phi = arg Psi`, where both gradients
are `jnp.gradient` central differences with ONE-SIDED differences at the
grid edges — not periodic wrap. -/
theorem C1_amended (m n : ℕ) (Psi : ℕ → ℕ → ℂ) (kappa eta : ℝ) (i j : ℕ) :
    calculate_informational_stress_energy m n Psi kappa eta 0 0 i j =
      (((kappa * Complex.abs (Psi i j) ^ 2 *
          (gradAx1 n (fun p q => Complex.arg (Psi p q)) 1 i j ^ 2 +
            gradAx0 m (fun p q => Complex.arg (Psi p q)) 1 i j ^ 2) +
        eta *
          (gradAx1 n (fun p q => Real.sqrt (max (Complex.abs (Psi p q) ^ 2) 1e-9)) 1 i j ^ 2 +
            gradAx0 m (fun p q => Real.sqrt (max (Complex.abs (Psi p q) ^ 2) 1e-9)) 1 i j ^ 2)) :
        ℝ) : ℂ) := by
  simp only [calculate_informational_stress_energy]
  rw [if_pos (And.intro trivial trivial)]

lemma sum_range_mod_shift (N c : ℕ) (hN : 0 < N) (f : ℕ → ℝ) :
    ∑ i ∈ Finset.range N, f ((i + c) % N) = ∑ i ∈ Finset.range N, f i := by
  haveI : NeZero N := ⟨hN.ne'⟩
  rw [← Fin.sum_univ_eq_sum_range (fun i => f ((i + c) % N)),
      ← Fin.sum_univ_eq_sum_range (fun i => f i)]
  have key : ∀ i : Fin N, f (((i : ℕ) + c) % N) = f (((i + (c : Fin N) : Fin N) : ℕ)) := by
    intro i
    congr 1
    rw [Fin.val_add, Fin.val_natCast, Nat.add_mod, Nat.mod_eq_of_lt i.isLt]
  rw [Finset.sum_congr rfl fun i _ => key i]
  exact Fintype.sum_equiv (Equiv.addRight ((c : Fin N))) _ _ fun i => rfl

lemma jacobiStep_zero_source_sum (m n : ℕ) (hm : 0 < m) (hn : 0 < n)
    (x : ℕ → ℕ → ℝ) (dx omega : ℝ) :
    ∑ i ∈ Finset.range m, ∑ j ∈ Finset.range n,
        jacobiStep m n (fun _ _ => 0) x dx omega i j =
      ∑ i ∈ Finset.range m, ∑ j ∈ Finset.range n, x i j := by
  have hm1 : 1 ≤ m := hm
  have hn1 : 1 ≤ n := hn
  have hwp : ∀ i, wrapPred m i = (i + (m - 1)) % m := by
    intro i; unfold wrapPred; rw [Nat.add_sub_assoc hm1]
  have hwpn : ∀ j, wrapPred n j = (j + (n - 1)) % n := by
    intro j; unfold wrapPred; rw [Nat.add_sub_assoc hn1]
  have hup : ∑ i ∈ Finset.range m, ∑ j ∈ Finset.range n, x (wrapPred m i) j
      = ∑ i ∈ Finset.range m, ∑ j ∈ Finset.range n, x i j := by
    have h1 := sum_range_mod_shift m (m - 1) hm (fun t => ∑ j ∈ Finset.range n, x t j)
    rw [← h1]
    exact Finset.sum_congr rfl fun i _ => by rw [hwp i]
  have hdown : ∑ i ∈ Finset.range m, ∑ j ∈ Finset.range n, x (wrapSucc m i) j
      = ∑ i ∈ Finset.range m, ∑ j ∈ Finset.range n, x i j := by
    have h1 := sum_range_mod_shift m 1 hm (fun t => ∑ j ∈ Finset.range n, x t j)
    rw [← h1]
    rfl
  have hleft : ∑ i ∈ Finset.range m, ∑ j ∈ Finset.range n, x i (wrapPred n j)
      = ∑ i ∈ Finset.range m, ∑ j ∈ Finset.range n, x i j := by
    refine Finset.sum_congr rfl fun i _ => ?_
    have h1 := sum_range_mod_shift n (n - 1) hn (fun t => x i t)
    rw [← h1]
    exact Finset.sum_congr rfl fun j _ => by rw [hwpn j]
  have hright : ∑ i ∈ Finset.range m, ∑ j ∈ Finset.range n, x i (wrapSucc n j)
      = ∑ i ∈ Finset.range m, ∑ j ∈ Finset.range n, x i j := by
    refine Finset.sum_congr rfl fun i _ => ?_
    have h1 := sum_range_mod_shift n 1 hn (fun t => x i t)
    rw [← h1]
    rfl
  have expand : ∀ i j, jacobiStep m n (fun _ _ => 0) x dx omega i j
      = (1 - omega) * x i j + omega / 4 * x (wrapPred m i) j +
        omega / 4 * x (wrapSucc m i) j + omega / 4 * x i (wrapPred n j) +
        omega / 4 * x i (wrapSucc n j) := by
    intro i j
    simp only [jacobiStep]
    ring
  simp only [expand, Finset.sum_add_distrib, ← Finset.mul_sum]
  rw [hup, hdown, hleft, hright]
  ring

lemma jacobiStep_zero_source_mean (m n : ℕ) (hm : 0 < m) (hn : 0 < n)
    (x : ℕ → ℕ → ℝ) (dx omega : ℝ) :
    gridMean m n (jacobiStep m n (fun _ _ => 0) x dx omega) = gridMean m n x := by
  unfold gridMean
  rw [jacobiStep_zero_source_sum m n hm hn x dx omega]

/-- C7: with an all-zero source, every relaxation sweep of the elliptic
solver preserves the spatial mean of the field, so after any number of
iterations (in particular each of the 50) the mean equals that of the
initial guess. -/
theorem C7_zero_source_mean (m n : ℕ) (hm : 0 < m) (hn : 0 < n)
    (x : ℕ → ℕ → ℝ) (dx omega : ℝ) (k : ℕ) :
    gridMean m n (_jacobi_poisson_solver m n (fun _ _ => 0) x dx k omega) =
      gridMean m n x := by
  induction k with
  | zero => rfl
  | succ k ih =>
      calc gridMean m n (_jacobi_poisson_solver m n (fun _ _ => 0) x dx (k + 1) omega)
          = gridMean m n (jacobiStep m n (fun _ _ => 0)
              (_jacobi_poisson_solver m n (fun _ _ => 0) x dx k omega) dx omega) := rfl
        _ = gridMean m n (_jacobi_poisson_solver m n (fun _ _ => 0) x dx k omega) :=
            jacobiStep_zero_source_mean m n hm hn _ dx omega
        _ = gridMean m n x := ih

theorem C7_zero_source_mean_witness :
    0 < 1 ∧
    gridMean 1 1 (_jacobi_poisson_solver 1 1 (fun _ _ => 0) (fun _ _ => 3) 1 2 1.8) =
      gridMean 1 1 (fun _ _ => 3) :=
  ⟨one_pos, C7_zero_source_mean 1 1 one_pos one_pos (fun _ _ => 3) 1 1.8 2⟩

theorem C10_only_re_T00_witness :
    (∀ i j : ℕ,
      (((fun _ _ _ _ => 0 : Fin 4 → Fin 4 → ℕ → ℕ → ℂ)) 0 0 i j).re =
      (((fun _ _ _ _ => Complex.I : Fin 4 → Fin 4 → ℕ → ℕ → ℂ)) 0 0 i j).re) ∧
    solve_sdg_geometry 2 2 (fun _ _ _ _ => 0) (fun _ _ => 0) 1 1 1 =
      solve_sdg_geometry 2 2 (fun _ _ _ _ => Complex.I) (fun _ _ => 0) 1 1 1 := by
  have h : ∀ i j : ℕ,
      (((fun _ _ _ _ => 0 : Fin 4 → Fin 4 → ℕ → ℕ → ℂ)) 0 0 i j).re =
      (((fun _ _ _ _ => Complex.I : Fin 4 → Fin 4 → ℕ → ℕ → ℂ)) 0 0 i j).re :=
    fun _ _ => by simp
  exact ⟨h, C10_only_re_T00 2 2 _ _ (fun _ _ => 0) 1 1 1 h⟩

lemma coeff_eq (epsilon : ℝ) :
    (((epsilon * 0.5 : ℝ) : ℂ) + Complex.I * ((epsilon * 0.8 : ℝ) : ℂ)) =
      (epsilon : ℂ) * (0.5 + 0.8 * Complex.I) := by
  simp only [Complex.ext_iff, Complex.add_re, Complex.add_im, Complex.mul_re, Complex.mul_im,
    Complex.I_re, Complex.I_im, Complex.ofReal_re, Complex.ofReal_im]
  norm_num

/-- C5: `apply_complex_diffusion` returns exactly
`epsilon * (0.5 + 0.8i)` times the Laplace-Beltrami value
`g^ij * Hessian_ij - g^ij * Gamma^k_ij * grad_k(field)`, computed per cell
from the per-cell inverse spatial metric and the Christoffel symbols. -/
theorem C5_diffusion_formula (m n : ℕ) (Psi : ℕ → ℕ → ℂ) (epsilon : ℝ)
    (g_mu_nu : Fin 4 → Fin 4 → ℕ → ℕ → ℝ) (res : ℕ) :
    apply_complex_diffusion m n Psi epsilon g_mu_nu res = fun x y =>
      (epsilon : ℂ) * (0.5 + 0.8 * Complex.I) *
        ((∑ i : Fin 2, ∑ j : Fin 2,
            ((inv2x2 (fun a b => g_mu_nu (spatialIdx a) (spatialIdx b) x y) i j : ℝ) : ℂ) *
              hessianPsi m n Psi (1 / (res : ℝ)) i j x y) -
          ∑ i : Fin 2, ∑ j : Fin 2, ∑ k : Fin 2,
            ((inv2x2 (fun a b => g_mu_nu (spatialIdx a) (spatialIdx b) x y) i j : ℝ) : ℂ) *
              ((Gamma m n (fun a b x y => g_mu_nu (spatialIdx a) (spatialIdx b) x y)
                  k i j x y : ℝ) : ℂ) *
                dPsi m n Psi (1 / (res : ℝ)) k x y) := by
  funext x y
  simp only [apply_complex_diffusion]
  rw [coeff_eq]

lemma dgij_const (m n : ℕ) (gij : Fin 2 → Fin 2 → ℕ → ℕ → ℝ)
    (G : Fin 2 → Fin 2 → ℝ) (h : ∀ a b x y, gij a b x y = G a b)
    (k a b : Fin 2) (x y : ℕ) : dgij m n gij k a b x y = 0 := by
  unfold dgij
  split <;> rw [h, h] <;> ring

lemma Gamma_const (m n : ℕ) (gij : Fin 2 → Fin 2 → ℕ → ℕ → ℝ)
    (G : Fin 2 → Fin 2 → ℝ) (h : ∀ a b x y, gij a b x y = G a b)
    (k i j : Fin 2) (x y : ℕ) : Gamma m n gij k i j x y = 0 := by
  unfold Gamma
  simp [dgij_const m n gij G h]

/-- C8: when the spatial metric block is the same 2x2 matrix `G` at every
cell, all Christoffel symbols computed by the differentiator are zero, and
the diffusion increment reduces to the flat result: `epsilon*(0.5+0.8i)`
times the discrete Hessian contracted with the constant inverse metric. -/
theorem C8_flat_metric (m n : ℕ) (Psi : ℕ → ℕ → ℂ) (epsilon : ℝ)
    (g_mu_nu : Fin 4 → Fin 4 → ℕ → ℕ → ℝ) (res : ℕ) (G : Fin 2 → Fin 2 → ℝ)
    (h : ∀ (a b : Fin 2) (x y : ℕ), g_mu_nu (spatialIdx a) (spatialIdx b) x y = G a b) :
    (∀ (k i j : Fin 2) (x y : ℕ),
      Gamma m n (fun a b x y => g_mu_nu (spatialIdx a) (spatialIdx b) x y) k i j x y = 0) ∧
    apply_complex_diffusion m n Psi epsilon g_mu_nu res = fun x y =>
      (epsilon : ℂ) * (0.5 + 0.8 * Complex.I) *
        ∑ i : Fin 2, ∑ j : Fin 2,
          ((inv2x2 G i j : ℝ) : ℂ) * hessianPsi m n Psi (1 / (res : ℝ)) i j x y := by
  have hG : ∀ (k i j : Fin 2) (x y : ℕ),
      Gamma m n (fun a b x y => g_mu_nu (spatialIdx a) (spatialIdx b) x y) k i j x y = 0 :=
    fun k i j x y =>
      Gamma_const m n _ G (fun a b x y => h a b x y) k i j x y
  refine ⟨hG, ?_⟩
  funext x y
  have hinv : (fun a b => g_mu_nu (spatialIdx a) (spatialIdx b) x y) = G := by
    funext a b
    exact h a b x y
  simp only [apply_complex_diffusion, hG, Complex.ofReal_zero, zero_mul, mul_zero,
    Finset.sum_const_zero, sub_zero, hinv]
  rw [coeff_eq]

theorem C8_flat_metric_witness :
    (∀ (a b : Fin 2) (x y : ℕ), gMink (spatialIdx a) (spatialIdx b) x y = flatG a b) ∧
    ((∀ (k i j : Fin 2) (x y : ℕ),
      Gamma 2 2 (fun a b x y => gMink (spatialIdx a) (spatialIdx b) x y) k i j x y = 0) ∧
    apply_complex_diffusion 2 2 (fun _ _ => 0) 1 gMink 1 = fun x y =>
      ((1 : ℝ) : ℂ) * (0.5 + 0.8 * Complex.I) *
        ∑ i : Fin 2, ∑ j : Fin 2,
          ((inv2x2 flatG i j : ℝ) : ℂ) *
            hessianPsi 2 2 (fun _ _ => 0) (1 / ((1 : ℕ) : ℝ)) i j x y) :=
  ⟨fun _ _ _ _ => rfl,
    C8_flat_metric 2 2 (fun _ _ => 0) 1 gMink 1 flatG (fun _ _ _ _ => rfl)⟩

/-- C9: `apply_complex_diffusion` depends on the metric tensor only through
its spatial 2x2 block `g_mu_nu[1:3,1:3]`: two metric fields agreeing there
produce identical increments; in particular the time and third-spatial
components, and the volume element `sqrt(-det g)` of the full tensor
(computed but unused), never influence the output. -/
theorem C9_spatial_block_only (m n : ℕ) (Psi : ℕ → ℕ → ℂ) (epsilon : ℝ) (res : ℕ)
    (g1 g2 : Fin 4 → Fin 4 → ℕ → ℕ → ℝ)
    (h : ∀ (a b : Fin 2) (x y : ℕ),
      g1 (spatialIdx a) (spatialIdx b) x y = g2 (spatialIdx a) (spatialIdx b) x y) :
    apply_complex_diffusion m n Psi epsilon g1 res =
      apply_complex_diffusion m n Psi epsilon g2 res := by
  funext x y
  simp only [apply_complex_diffusion]
  simp only [h]

theorem C9_spatial_block_only_witness :
    (∀ (a b : Fin 2) (x y : ℕ),
      gMink (spatialIdx a) (spatialIdx b) x y =
        gMinkPerturbed (spatialIdx a) (spatialIdx b) x y) ∧
    apply_complex_diffusion 2 2 (fun _ _ => Complex.I) 1 gMink 4 =
      apply_complex_diffusion 2 2 (fun _ _ => Complex.I) 1 gMinkPerturbed 4 := by
  have h : ∀ (a b : Fin 2) (x y : ℕ),
      gMink (spatialIdx a) (spatialIdx b) x y =
        gMinkPerturbed (spatialIdx a) (spatialIdx b) x y := by
    intro a b x y
    fin_cases a <;> fin_cases b <;> simp [gMink, gMinkPerturbed, spatialIdx]
  exact ⟨h, C9_spatial_block_only 2 2 (fun _ _ => Complex.I) 1 4 gMink gMinkPerturbed h⟩

end

end SolverSDG

namespace ValidationPipeline

lemma fmax_isNan (a b : FVal) : (fmax a b).isNan = (a.isNan || b.isNan) := by
  cases a <;> cases b <;> rfl

lemma gtQ_fmax (a b : FVal) (t : ℚ) (ha : a.isNan = false) (hb : b.isNan = false) :
    (fmax a b).gtQ t = (a.gtQ t || b.gtQ t) := by
  cases a <;> cases b <;>
    simp_all [fmax, FVal.gtQ, FVal.isNan, lt_max_iff]

lemma foldl_fmax_gtQ (t : ℚ) (l : List FVal) :
    ∀ a : FVal, a.isNan = false → (∀ v ∈ l, v.isNan = false) →
      (l.foldl fmax a).gtQ t = (a.gtQ t || l.any (fun v => v.gtQ t)) := by
  induction l with
  | nil => intro a _ _; simp
  | cons v vs ih =>
      intro a ha hl
      have hv : v.isNan = false := hl v (List.mem_cons_self v vs)
      have hfa : (fmax a v).isNan = false := by
        rw [fmax_isNan, ha, hv]
        rfl
      have hvs : ∀ w ∈ vs, w.isNan = false :=
        fun w hw => hl w (List.mem_cons_of_mem v hw)
      calc (List.foldl fmax a (v :: vs)).gtQ t
          = (List.foldl fmax (fmax a v) vs).gtQ t := rfl
        _ = ((fmax a v).gtQ t || vs.any (fun w => w.gtQ t)) := ih (fmax a v) hfa hvs
        _ = ((a.gtQ t || v.gtQ t) || vs.any (fun w => w.gtQ t)) := by
            rw [gtQ_fmax a v t ha hv]
        _ = (a.gtQ t || (v :: vs).any (fun w => w.gtQ t)) := by
            rw [List.any_cons, Bool.or_assoc]

lemma divergenceCheck_true (cells : List FVal) (v : FVal) (hv : v ∈ cells)
    (h : v = FVal.nan ∨ v = FVal.inf ∨ ∃ x, v = FVal.fin x ∧ 1000000 < x) :
    divergenceCheck cells = true := by
  unfold divergenceCheck
  by_cases hnan : cells.any FVal.isNan = true
  · rw [hnan]
    rfl
  · have hall : ∀ w ∈ cells, w.isNan = false := by
      intro w hw
      cases hwn : w.isNan with
      | false => rfl
      | true => exact absurd (List.any_eq_true.mpr ⟨w, hw, hwn⟩) hnan
    have hvgt : v.gtQ 1000000 = true := by
      rcases h with h | h | ⟨x, hx, hgt⟩
      · have := hall v hv
        rw [h] at this
        exact absurd this (by simp [FVal.isNan])
      · rw [h]
        rfl
      · rw [hx]
        simpa [FVal.gtQ] using hgt
    obtain ⟨c, cs, rfl⟩ : ∃ c cs, cells = c :: cs := by
      cases cells with
      | nil => exact absurd hv (List.not_mem_nil v)
      | cons c cs => exact ⟨c, cs, rfl⟩
    have hc : c.isNan = false := hall c (List.mem_cons_self c cs)
    have hcs : ∀ w ∈ cs, w.isNan = false :=
      fun w hw => hall w (List.mem_cons_of_mem c hw)
    have hmax : (npMax (c :: cs)).gtQ 1000000 = true := by
      unfold npMax
      rw [foldl_fmax_gtQ 1000000 cs c hc hcs]
      rcases List.mem_cons.mp hv with rfl | hvcs
      · rw [hvgt]
        rfl
      · have hany : cs.any (fun w => w.gtQ 1000000) = true :=
          List.any_eq_true.mpr ⟨v, hvcs, hvgt⟩
        rw [hany, Bool.or_true]
    rw [hmax, Bool.or_true]

/-- C6: whenever the derived density `|psi|^2` of the stored field contains
a non-finite value (NaN or Inf) or a finite value exceeding `1e6`, the
validator writes the provenance record with status "DIVERGENCE", sentinel
code `SENTINEL_DIVERGENCE`, the spectral-fidelity metric pinned at `1000.0`,
and no stability metric — independently of whatever the skipped downstream
analysis would have produced. -/
theorem C6_divergence_record (d1 d2 d3 : ℕ) (psi : ℕ → ℕ → ℕ → Sample)
    (analysis : ProvenanceRecord)
    (h : ∃ i, i < d1 ∧ ∃ j, j < d2 ∧ ∃ k, k < d3 ∧
        (np_abs_sq (psi i j k) = FVal.nan ∨ np_abs_sq (psi i j k) = FVal.inf ∨
          ∃ x, np_abs_sq (psi i j k) = FVal.fin x ∧ 1000000 < x)) :
    run_validation d1 d2 d3 psi analysis =
      ⟨"DIVERGENCE", SENTINEL_DIVERGENCE, some 1000, none⟩ := by
  obtain ⟨i, hi, j, hj, k, hk, hv⟩ := h
  have hmem : np_abs_sq (psi i j k) ∈
      cellsOf d1 d2 d3 (fun a b c => np_abs_sq (psi a b c)) := by
    unfold cellsOf
    refine List.mem_flatMap.mpr ⟨i, List.mem_range.mpr hi, ?_⟩
    refine List.mem_flatMap.mpr ⟨j, List.mem_range.mpr hj, ?_⟩
    exact List.mem_map.mpr ⟨k, List.mem_range.mpr hk, rfl⟩
  have hchk := divergenceCheck_true _ _ hmem hv
  simp only [run_validation, hchk]
  rfl

theorem C6_divergence_record_witness :
    (∃ i, i < 1 ∧ ∃ j, j < 1 ∧ ∃ k, k < 1 ∧
        (np_abs_sq ((fun _ _ _ => Sample.nan) i j k) = FVal.nan ∨
          np_abs_sq ((fun _ _ _ => Sample.nan) i j k) = FVal.inf ∨
          ∃ x, np_abs_sq ((fun _ _ _ => Sample.nan) i j k) = FVal.fin x ∧ 1000000 < x)) ∧
    run_validation 1 1 1 (fun _ _ _ => Sample.nan) ⟨"PASS", 0, none, none⟩ =
      ⟨"DIVERGENCE", SENTINEL_DIVERGENCE, some 1000, none⟩ := by
  have h : ∃ i, i < 1 ∧ ∃ j, j < 1 ∧ ∃ k, k < 1 ∧
      (np_abs_sq ((fun _ _ _ => Sample.nan) i j k) = FVal.nan ∨
        np_abs_sq ((fun _ _ _ => Sample.nan) i j k) = FVal.inf ∨
        ∃ x, np_abs_sq ((fun _ _ _ => Sample.nan) i j k) = FVal.fin x ∧ 1000000 < x) :=
    ⟨0, by decide, 0, by decide, 0, by decide, Or.inl rfl⟩
  exact ⟨h, C6_divergence_record 1 1 1 (fun _ _ _ => Sample.nan) ⟨"PASS", 0, none, none⟩ h⟩

end ValidationPipeline
